import Mathlib

/-!
Verification of the distance-and-route helpers
(`src/apis/distance_and_route/distance_and_route.js`).

The JavaScript module is shallowly embedded here.  JS numbers are modelled by
an arbitrary linear ordered field `α` (instantiated with `ℚ` in concrete
witnesses); `Math.sin`, `Math.cos`, `Math.sqrt`, `Math.atan2` and `Math.PI`
are bundled into a `TrigOps` record, since the service-level control flow is
independent of the actual trigonometric functions.  Every outbound HTTP call
is modelled by an environment record holding the outcome of that request
(`Except Unit resp`: `.error` is a rejected fetch, `.ok` a parsed JSON body).
Thrown JS exceptions are modelled by `Except String`.
-/

namespace DistanceRoute

variable {α : Type} [LinearOrderedField α]

/-- JS truthiness of an optional string (API keys, provider names):
`undefined`/missing and the empty string are falsy. -/
def jsStrTruthy : Option String → Bool
  | none => false
  | some s => s ≠ ""

/-- JS `x || d` for an optional string: falsy (`undefined` or `""`) picks `d`. -/
def jsOrStr : Option String → String → String
  | none, d => d
  | some s, d => if s = "" then d else s

/-- `Math.round`: round half up, as JS does for finite arguments. -/
def jsRound [FloorRing α] (x : α) : α := (⌊x + 1 / 2⌋ : ℤ)

/-- Canonical point produced by `_toPoint`: `{ lat, lng }` with numeric fields. -/
structure Point (α : Type) where
  lat : α
  lng : α
deriving DecidableEq, Repr

instance : Inhabited (Point α) := ⟨⟨0, 0⟩⟩

/-- Shapes a caller can pass for a point, as distinguished by `_toPoint`.
`Option α` models the result of `Number(x)` coercion: `none` is `NaN`
(including the missing-field case, since `Number(undefined)` is `NaN`).
`invalid` collects every input `_toPoint` maps to `null`: falsy non-zero
values and objects carrying neither coordinate key pair. -/
inductive PointInput (α : Type) where
  | arr (fst snd : Option α)
  | latLng (lat lng : Option α)
  | latitudeLongitude (lat lng : Option α)
  | invalid
deriving DecidableEq, Repr

/-- `_toPoint`: shape dispatch.  Returns the coerced coordinate pair (still
possibly `NaN`), or `none` for the `null` result. -/
def _toPoint : PointInput α → Option (Option α × Option α)
  | .arr a b => some (a, b)
  | .latLng a b => some (a, b)
  | .latitudeLongitude a b => some (a, b)
  | .invalid => none

/-- `_validatePoint`: throws when `_toPoint` returned `null` or either
coordinate coerced to `NaN`.  There is no range check in the source. -/
def _validatePoint (p : PointInput α) (name : String) : Except String (Point α) :=
  match _toPoint p with
  | some (some la, some ln) => .ok ⟨la, ln⟩
  | _ => .error (name ++ " must be an object lat lng or an array with numeric values")

/-- `points.map((p, i) => _validatePoint(p, ...))`: validates in order,
throwing at the first invalid entry. -/
def validatePoints : List (PointInput α) → Except String (List (Point α))
  | [] => .ok []
  | p :: ps =>
    match _validatePoint p "points i", validatePoints ps with
    | .error e, _ => .error e
    | .ok _, .error e => .error e
    | .ok pt, .ok pts => .ok (pt :: pts)

/-- The `Math` functions used by `_haversine`, abstracted: the module's
control flow never depends on their actual values. -/
structure TrigOps (α : Type) where
  sin : α → α
  cos : α → α
  sqrt : α → α
  atan2 : α → α → α
  pi : α

/-- `toRad = (d) => (d * Math.PI) / 180`. -/
def toRad (ops : TrigOps α) (d : α) : α := d * ops.pi / 180

/-- `_haversine`: great-circle distance in meters, mean radius 6371000. -/
def _haversine (ops : TrigOps α) (a b : Point α) : α :=
  let R : α := 6371000
  let phi1 := toRad ops a.lat
  let phi2 := toRad ops b.lat
  let dphi := toRad ops (b.lat - a.lat)
  let dlam := toRad ops (b.lng - a.lng)
  let sdphi := ops.sin (dphi / 2)
  let sdlam := ops.sin (dlam / 2)
  let h := sdphi * sdphi + ops.cos phi1 * ops.cos phi2 * sdlam * sdlam
  let c := 2 * ops.atan2 (ops.sqrt h) (ops.sqrt (1 - h))
  R * c

/-- Concrete stand-in for the `Math` record over `ℚ`, used to evaluate the
control-flow theorems on closed inputs.  With `pi = 180`, `toRad` is the
identity, so `qTrig`-distances of concrete points are concrete rationals. -/
def qTrig : TrigOps ℚ where
  sin := fun x => x
  cos := fun x => x
  sqrt := fun x => x
  atan2 := fun x _ => x
  pi := 180

example : _haversine qTrig ⟨1, 0⟩ ⟨1, 2⟩ = 12742000 := by
  norm_num [_haversine, toRad, qTrig]

example : _haversine qTrig ⟨1, 0⟩ ⟨1, 6⟩ = 114678000 := by
  norm_num [_haversine, toRad, qTrig]

example : _validatePoint (α := ℚ) (.latLng (some 91) (some 0)) "point" = .ok ⟨91, 0⟩ := rfl

/-! ## Provider response shapes, as the module reads them -/

/-- One cell of a Google Distance Matrix response.  `distance`/`duration`
model `elem.distance.value` / `elem.duration.value`; `none` is a missing
object (reading `.value` off a missing `distance` throws a `TypeError`). -/
structure GElem (α : Type) where
  status : String
  distance : Option α
  duration : Option α
deriving DecidableEq, Repr

/-- Google Distance Matrix response body.  `rows` holds each row's
`elements` list (JSON rows of objects, so no null entries: the source's
defensive `elem &&` test is then always true). -/
structure GMatrixResp (α : Type) where
  status : String
  rows : List (List (GElem α))
deriving DecidableEq, Repr

/-- OpenRouteService matrix response body: `distances`/`durations` are
NxN arrays of nullable numbers, or missing entirely. -/
structure OrsResp (α : Type) where
  distances : Option (List (List (Option α)))
  durations : Option (List (List (Option α)))
deriving DecidableEq, Repr

/-- One route of an OSRM `route` response. `duration` may be missing. -/
structure OsrmRoute (α : Type) where
  distance : α
  duration : Option α
deriving DecidableEq, Repr

/-- OSRM `route` response body. `code` may be missing (it is only read
through the truthy guard `data.code && data.code !== "Ok"`). -/
structure OsrmRouteResp (α : Type) where
  code : Option String
  routes : List (OsrmRoute α)
deriving DecidableEq, Repr

/-- OSRM `table` response body. -/
structure OsrmTableResp (α : Type) where
  code : Option String
  distances : Option (List (List (Option α)))
  durations : Option (List (List (Option α)))
deriving DecidableEq, Repr

/-- One leg of a Google Directions route, as read by the reducers
(`l.distance ? l.distance.value : 0`). -/
structure GLeg (α : Type) where
  distance : Option α
  duration : Option α
deriving DecidableEq, Repr

/-- One route of a Google Directions response. -/
structure GRoute (α : Type) where
  waypoint_order : Option (List Nat)
  legs : Option (List (GLeg α))
deriving DecidableEq, Repr

/-- Google Directions response body. -/
structure GDirResp (α : Type) where
  status : String
  routes : List (GRoute α)
deriving DecidableEq, Repr

/-- One waypoint of an OSRM `trip` response: `location` is `[lon, lat]`. -/
structure OsrmWp (α : Type) where
  waypoint_index : α
  location : α × α
deriving DecidableEq, Repr

/-- One trip of an OSRM `trip` response.  `legs` is only tested for
truthiness, so its elements carry no data here. -/
structure OsrmTrip (α : Type) where
  legs : Option (List Unit)
  distance : Option α
  duration : Option α
deriving DecidableEq, Repr

/-- OSRM `trip` response body. -/
structure OsrmTripResp (α : Type) where
  code : Option String
  trips : List (OsrmTrip α)
  waypoints : Option (List (OsrmWp α))
deriving DecidableEq, Repr

instance {ε β : Type} [DecidableEq ε] [DecidableEq β] : DecidableEq (Except ε β) := fun a b =>
  match a, b with
  | .error e, .error f =>
    if h : e = f then isTrue (h ▸ rfl) else isFalse (fun hh => h (Except.error.inj hh))
  | .error _, .ok _ => isFalse (fun hh => Except.noConfusion hh)
  | .ok _, .error _ => isFalse (fun hh => Except.noConfusion hh)
  | .ok x, .ok y =>
    if h : x = y then isTrue (h ▸ rfl) else isFalse (fun hh => h (Except.ok.inj hh))

/-! ## Request environments

Each field is the outcome of the corresponding `_fetchJson` call:
`.error ()` a rejected fetch (network failure or non-2xx status),
`.ok body` a parsed JSON body. -/

/-- Outcomes of the fetches `calculateDistance` can issue. -/
structure CalcEnv (α : Type) where
  google : Except Unit (GMatrixResp α)
  orsFootWalking : Except Unit (OrsResp α)
  orsProfile : Except Unit (OrsResp α)
  osrm : Except Unit (OsrmRouteResp α)
deriving DecidableEq, Repr

/-- Outcomes of the fetches `getDistanceMatrix` can issue. -/
structure MatrixEnv (α : Type) where
  google : Except Unit (GMatrixResp α)
  ors : Except Unit (OrsResp α)
  osrm : Except Unit (OsrmTableResp α)
deriving DecidableEq, Repr

/-- Outcomes of the fetches `optimizeRoute` can issue. -/
structure RouteEnv (α : Type) where
  google : Except Unit (GDirResp α)
  osrm : Except Unit (OsrmTripResp α)
deriving DecidableEq, Repr

/-! ## Options and provider selection -/

/-- The recognized `options` keys.  `profile` and `roundtrip` only shape the
request URLs, never the parsing, so they are carried but unread here. -/
structure Options where
  provider : Option String
  googleApiKey : Option String
  openRouteServiceApiKey : Option String
  profile : Option String
  roundtrip : Option Bool
deriving DecidableEq, Repr

/-- `options.provider || "auto"`. -/
def providerOf (o : Options) : String := jsOrStr o.provider "auto"

/-- Guard of the Google branches:
`(provider === "google" || provider === "auto") && options.googleApiKey`. -/
def googleSelected (o : Options) : Bool :=
  (providerOf o == "google" || providerOf o == "auto") && jsStrTruthy o.googleApiKey

/-- Guard of the ORS branches. -/
def orsSelected (o : Options) : Bool :=
  (providerOf o == "ors" || providerOf o == "openrouteservice" || providerOf o == "auto")
    && jsStrTruthy o.openRouteServiceApiKey

/-- Guard of the OSRM branches: `provider === "osrm" || provider === "auto"`. -/
def osrmSelected (o : Options) : Bool :=
  providerOf o == "osrm" || providerOf o == "auto"

/-! ## calculateDistance -/

/-- `data.code && data.code !== "Ok"`: the OSRM error guard. -/
def osrmCodeBad : Option String → Bool
  | none => false
  | some s => s ≠ "" && s ≠ "Ok"

/-- The ORS cell chain `m && m[0] && m[0][1]`, yielding the looked-up value
(`none` when any link is missing or the cell itself is `null`). -/
def orsCell : Option (List (List (Option α))) → Option α
  | none => none
  | some rows =>
    match rows[0]? with
    | none => none
    | some row =>
      match row[1]? with
      | none => none
      | some v => v

/-- Result record of `calculateDistance`: `duration = none` models a
missing/`undefined` duration. -/
structure DistanceResult (α : Type) where
  distance : α
  duration : Option α
  unit : String
deriving DecidableEq, Repr

/-- The ORS branch tail of `calculateDistance`: a falsy looked-up distance
(missing, `null`, or `0`) is replaced by `_haversine(A, B)`; a falsy
looked-up duration becomes `undefined`. -/
def orsPairResult (ops : TrigOps α) (A B : Point α) (resp : OrsResp α) :
    Except String (DistanceResult α) :=
  let dist : α :=
    match orsCell resp.distances with
    | some v => if v = 0 then _haversine ops A B else v
    | none => _haversine ops A B
  let dur : Option α :=
    match orsCell resp.durations with
    | some v => if v = 0 then none else some v
    | none => none
  .ok ⟨dist, dur, "meters"⟩

/-- The `try` body of the OSRM branch of `calculateDistance`: `none` when
any step threw (caught by the source and turned into fallthrough). -/
def osrmRouteAttempt (e : Except Unit (OsrmRouteResp α)) : Option (DistanceResult α) :=
  match e with
  | .error _ => none
  | .ok data =>
    if osrmCodeBad data.code then none
    else
      match data.routes[0]? with
      | none => none
      | some route => some ⟨route.distance, route.duration, "meters"⟩

/-- `calculateDistance(a, b, options)` under fetch outcomes `env`.  The
outer `try`/`catch` logs and rethrows, so it is transparent here. -/
def calculateDistance [FloorRing α] (ops : TrigOps α) (a b : PointInput α) (o : Options)
    (env : CalcEnv α) : Except String (DistanceResult α) :=
  match _validatePoint a "point A" with
  | .error e => .error e
  | .ok A =>
    match _validatePoint b "point B" with
    | .error e => .error e
    | .ok B =>
      if googleSelected o then
        match env.google with
        | .error _ => .error "fetch failed"
        | .ok data =>
          if data.status ≠ "OK" then .error ("Google API error: " ++ data.status)
          else
            match (data.rows[0]?).bind (fun es => es[0]?) with
            | none => .error "Google element error: no data"
            | some cell =>
              if cell.status ≠ "OK" then .error ("Google element error: " ++ cell.status)
              else
                match cell.distance with
                | none => .error "TypeError: cannot read value of undefined"
                | some v => .ok ⟨v, cell.duration, "meters"⟩
      else if orsSelected o then
        match env.orsFootWalking with
        | .ok resp => orsPairResult ops A B resp
        | .error _ =>
          match env.orsProfile with
          | .ok resp => orsPairResult ops A B resp
          | .error _ => .error "fetch failed"
      else if osrmSelected o then
        match osrmRouteAttempt env.osrm with
        | some res => .ok res
        | none => .ok ⟨jsRound (_haversine ops A B), none, "meters"⟩
      else .ok ⟨jsRound (_haversine ops A B), none, "meters"⟩

/-! ## getDistanceMatrix -/

/-- Result record of `getDistanceMatrix`.  The ORS/OSRM branches can return
`null` for a whole container (`resp.distances || null`), so the containers
are optional; inner cells are nullable. -/
structure MatrixResult (α : Type) where
  distances : Option (List (List (Option α)))
  durations : Option (List (List (Option α)))
  unit : String
deriving DecidableEq, Repr

/-- One Google matrix cell: `status === "OK"` pushes
`elem.distance.value` (a `TypeError` if the `distance` object is missing)
and `elem.duration ? elem.duration.value : null`; otherwise `null`s. -/
def gCell (e : GElem α) : Except String (Option α × Option α) :=
  if e.status = "OK" then
    match e.distance with
    | some v => .ok (some v, e.duration)
    | none => .error "TypeError: cannot read value of undefined"
  else .ok (none, none)

/-- The Google matrix row loop, producing one distance row and one duration
row. -/
def gRow : List (GElem α) → Except String (List (Option α) × List (Option α))
  | [] => .ok ([], [])
  | e :: es =>
    match gCell e, gRow es with
    | .error err, _ => .error err
    | .ok _, .error err => .error err
    | .ok (d, t), .ok (ds, ts) => .ok (d :: ds, t :: ts)

/-- The Google matrix row-of-rows loop. -/
def gRows : List (List (GElem α)) → Except String (List (List (Option α)) × List (List (Option α)))
  | [] => .ok ([], [])
  | r :: rs =>
    match gRow r, gRows rs with
    | .error err, _ => .error err
    | .ok _, .error err => .error err
    | .ok (d, t), .ok (ds, ts) => .ok (d :: ds, t :: ts)

/-- The fallback double loop: `distances[i][j] = i === j ? 0 :
Math.round(_haversine(pts[i], pts[j]))`. -/
def haversineDistances [FloorRing α] (ops : TrigOps α) (pts : List (Point α)) :
    List (List (Option α)) :=
  (List.range pts.length).map fun i =>
    (List.range pts.length).map fun j =>
      if i = j then some 0
      else some (jsRound (_haversine ops (pts.getD i default) (pts.getD j default)))

/-- The fallback duration matrix: `0` on the diagonal, `null` elsewhere. -/
def haversineDurations (pts : List (Point α)) : List (List (Option α)) :=
  (List.range pts.length).map fun i =>
    (List.range pts.length).map fun j =>
      if i = j then some (0 : α) else none

/-- `getDistanceMatrix(points, options)` under fetch outcomes `env`. -/
def getDistanceMatrix [FloorRing α] (ops : TrigOps α) (points : List (PointInput α))
    (o : Options) (env : MatrixEnv α) : Except String (MatrixResult α) :=
  if points.length < 2 then .error "points must be an array with at least two entries"
  else
    match validatePoints points with
    | .error e => .error e
    | .ok pts =>
      if googleSelected o then
        match env.google with
        | .error _ => .error "fetch failed"
        | .ok data =>
          if data.status ≠ "OK" then .error ("Google API error: " ++ data.status)
          else
            match gRows data.rows with
            | .error e => .error e
            | .ok (ds, ts) => .ok ⟨some ds, some ts, "meters"⟩
      else if orsSelected o then
        match env.ors with
        | .error _ => .error "fetch failed"
        | .ok resp => .ok ⟨resp.distances, resp.durations, "meters"⟩
      else if osrmSelected o then
        match env.osrm with
        | .error _ => .error "fetch failed"
        | .ok data =>
          if osrmCodeBad data.code then .error "OSRM table error"
          else .ok ⟨data.distances, data.durations, "meters"⟩
      else .ok ⟨some (haversineDistances ops pts), some (haversineDurations pts), "meters"⟩

/-! ## optimizeRoute -/

/-- Result record of `optimizeRoute`.  A waypoint entry is `none` when the
source pushed `undefined` (an out-of-range `pts[1 + idx]` lookup). -/
structure RouteResult (α : Type) where
  waypoints : List (Option (Point α))
  waypointsOrder : Option (List Nat)
  distance : Option α
  duration : Option α
  provider : String
deriving DecidableEq, Repr

/-- Insert keeping earlier equal keys first, matching JS stable `sort`. -/
def insertWp (w : OsrmWp α) : List (OsrmWp α) → List (OsrmWp α)
  | [] => [w]
  | x :: xs =>
    if x.waypoint_index ≤ w.waypoint_index then x :: insertWp w xs else w :: x :: xs

/-- `waypoints.slice().sort((a, b) => a.waypoint_index - b.waypoint_index)`:
stable ascending sort by `waypoint_index`. -/
def sortByWaypointIndex : List (OsrmWp α) → List (OsrmWp α)
  | [] => []
  | w :: ws => insertWp w (sortByWaypointIndex ws)

/-- One candidate update of the nearest-neighbor scan:
`if (!visited[j]) { const d = _haversine(last, pts[j]); if (d < bestD) ... }`;
the accumulator `none` plays `(best, bestD) = (-1, Infinity)`. -/
def nnUpdate (ops : TrigOps α) (pts : List (Point α)) (last : Point α) (visited : List Bool)
    (acc : Option (Nat × α)) (j : Nat) : Option (Nat × α) :=
  if visited.getD j false then acc
  else
    let d := _haversine ops last (pts.getD j default)
    match acc with
    | none => some (j, d)
    | some (b, bd) => if d < bd then some (j, d) else some (b, bd)

/-- The inner scan of the nearest-neighbor loop over candidate indices. -/
def nnFold (ops : TrigOps α) (pts : List (Point α)) (last : Point α) (visited : List Bool)
    (l : List Nat) (acc : Option (Nat × α)) : Option (Nat × α) :=
  l.foldl (nnUpdate ops pts last visited) acc

/-- One step of the nearest-neighbor loop: the chosen `best` index, or
`none` when every index is visited (`best === -1`). -/
def nnStep (ops : TrigOps α) (pts : List (Point α)) (last : Point α) (visited : List Bool) :
    Option Nat :=
  (nnFold ops pts last visited (List.range pts.length) none).map Prod.fst

/-- The `for (let k = 1; k < n; k++)` greedy loop, with the remaining trip
count as fuel.  `best === -1` breaks. -/
def nnLoop (ops : TrigOps α) (pts : List (Point α)) :
    Nat → List Nat → List Bool → List Nat
  | 0, order, _ => order
  | k + 1, order, visited =>
    match nnStep ops pts (pts.getD (order.getLastD 0) default) visited with
    | none => order
    | some best => nnLoop ops pts k (order ++ [best]) (visited.set best true)

/-- `naiveOrder`: starts at index 0 and repeatedly appends the unvisited
index nearest (by `_haversine`) to the last chosen point. -/
def naiveOrder (ops : TrigOps α) (pts : List (Point α)) : List Nat :=
  nnLoop ops pts (pts.length - 1) [0] ((List.replicate pts.length false).set 0 true)

/-- `optimizeRoute(points, options)` under fetch outcomes `env`.

In the OSRM branch the source also computes `order` (line 318) and a local
`waypointOrder` of sorted locations (lines 320–325), but neither value
reaches the returned record (`waypointsOrder: null`), so they are omitted
here. -/
def optimizeRoute [FloorRing α] (ops : TrigOps α) (points : List (PointInput α))
    (o : Options) (env : RouteEnv α) : Except String (RouteResult α) :=
  if points.length < 2 then .error "points must be an array with at least two entries"
  else
    match validatePoints points with
    | .error e => .error e
    | .ok pts =>
      if googleSelected o then
        match env.google with
        | .error _ => .error "fetch failed"
        | .ok data =>
          if data.status ≠ "OK" then .error ("Google Directions error: " ++ data.status)
          else
            let route? := data.routes[0]?
            let wOrder : List Nat :=
              match route? with
              | some r =>
                match r.waypoint_order with
                | some l => l
                | none => []
              | none => []
            match route? with
            | none => .error "TypeError: cannot read legs of undefined"
            | some route =>
              let reordered : List (Option (Point α)) :=
                pts[0]? ::
                  (if 2 < pts.length then
                    wOrder.map (fun idx => pts[1 + idx]?) ++ [pts[pts.length - 1]?]
                  else [pts[1]?])
              let distance : Option α :=
                match route.legs with
                | some legs =>
                  some (legs.foldl
                    (fun s l => s + (match l.distance with | some v => v | none => 0)) 0)
                | none => none
              let duration : Option α :=
                match route.legs with
                | some legs =>
                  some (legs.foldl
                    (fun s l => s + (match l.duration with | some v => v | none => 0)) 0)
                | none => none
              .ok ⟨reordered, some wOrder, distance, duration, "google"⟩
      else if osrmSelected o then
        match env.osrm with
        | .error _ => .error "fetch failed"
        | .ok data =>
          if osrmCodeBad data.code then .error "OSRM trip error"
          else
            let trip? := data.trips[0]?
            let orderedPts : List (Option (Point α)) :=
              match trip? with
              | some trip =>
                match trip.legs with
                | some _ =>
                  match data.waypoints with
                  | some wps =>
                    if wps.length = pts.length then
                      (sortByWaypointIndex wps).map fun w =>
                        some ⟨w.location.2, w.location.1⟩
                    else pts.map some
                  | none => pts.map some
                | none => pts.map some
              | none => pts.map some
            let dist : Option α := match trip? with | some t => t.distance | none => none
            let dur : Option α := match trip? with | some t => t.duration | none => none
            .ok ⟨orderedPts, none, dist, dur, "osrm"⟩
      else
        let ord := naiveOrder ops pts
        .ok ⟨ord.map (fun i => pts[i]?), some ord, none, none, "naive-haversine"⟩

/-- `getEstimatedTime`: `res.duration ?? null` (both `undefined` and `null`
collapse to `none`). -/
def getEstimatedTime [FloorRing α] (ops : TrigOps α) (a b : PointInput α) (o : Options)
    (env : CalcEnv α) : Except String (Option α) :=
  match calculateDistance ops a b o env with
  | .error e => .error e
  | .ok res => .ok res.duration

/-! ## Basic lemmas -/

omit [LinearOrderedField α] in
/-- Validation preserves the number of points. -/
theorem validatePoints_length {points : List (PointInput α)} {pts : List (Point α)}
    (h : validatePoints points = .ok pts) : pts.length = points.length := by
  induction points generalizing pts with
  | nil => cases h; rfl
  | cons p ps ih =>
    dsimp only [validatePoints] at h
    cases hp : _validatePoint p "points i" with
    | error e => rw [hp] at h; exact absurd h (by simp)
    | ok pt =>
      rw [hp] at h
      cases hps : validatePoints ps with
      | error e => rw [hps] at h; exact absurd h (by simp)
      | ok pts' =>
        rw [hps] at h
        cases h
        simp [ih hps]

/-- Indexing a list through `List.range` of its length reproduces the list. -/
theorem range_map_getElem? (l : List β) :
    (List.range l.length).map (fun i => l[i]?) = l.map some := by
  apply List.ext_getElem?
  intro i
  by_cases hi : i < l.length
  · simp [List.getElem?_map, List.getElem?_range hi, List.getElem?_eq_getElem hi]
  · have h1 : l.length ≤ i := le_of_not_lt hi
    rw [List.getElem?_eq_none (by simpa using h1), List.getElem?_eq_none (by simpa using h1)]

/-! ## C3: point validation -/

/-- C3 (amended): `_validatePoint` fails exactly when `_toPoint` returns
`null` or a coordinate coerced to `NaN`; there is no range check, so any
numeric pair — including out-of-range latitudes — is accepted unchanged. -/
theorem validatePoint_nan_only :
    (∀ (p : PointInput α) (name : String),
      (∃ e, _validatePoint p name = .error e) ↔
        (_toPoint p = none ∨ ∃ pr, _toPoint p = some pr ∧ (pr.1 = none ∨ pr.2 = none)))
    ∧ ∀ (la ln : α) (name : String),
        _validatePoint (.latLng (some la) (some ln)) name = .ok ⟨la, ln⟩ := by
  constructor
  · intro p name
    cases p with
    | arr a b => cases a <;> cases b <;> simp [_validatePoint, _toPoint]
    | latLng a b => cases a <;> cases b <;> simp [_validatePoint, _toPoint]
    | latitudeLongitude a b => cases a <;> cases b <;> simp [_validatePoint, _toPoint]
    | invalid => simp [_validatePoint, _toPoint]
  · intro la ln name
    rfl

/-- C3 witness: the characterization instantiated at a `NaN` latitude and at
a plain numeric pair. -/
theorem validatePoint_nan_only_witness :
    (∃ e, _validatePoint (α := ℚ) (.arr none (some 3)) "p" = .error e) ∧
      _validatePoint (α := ℚ) (.latLng (some 37) (some (-122))) "p" = .ok ⟨37, -122⟩ :=
  ⟨(validatePoint_nan_only.1 (.arr none (some 3)) "p").2
      (Or.inr ⟨(none, some 3), rfl, Or.inl rfl⟩),
   validatePoint_nan_only.2 37 (-122) "p"⟩

/-- C3 counterexample: `{lat: 91, lng: 0}` is not rejected — the source
never range-checks, so normalization returns the out-of-range point. -/
theorem validatePoint_accepts_out_of_range :
    _validatePoint (α := ℚ) (.latLng (some 91) (some 0)) "point" = .ok ⟨91, 0⟩
      ∧ ¬∃ e, _validatePoint (α := ℚ) (.latLng (some 91) (some 0)) "point" = .error e := by
  refine ⟨rfl, ?_⟩
  rintro ⟨e, he⟩
  simp [_validatePoint, _toPoint] at he

/-! ## C9: Haversine symmetry and zero -/

/-- C9: for any `Math` record whose `sin` is odd, whose `sqrt` sends `0` to
`0`, and whose `atan2` sends a zero first argument to `0` (all true of the
real functions), `_haversine` is symmetric and vanishes on equal points. -/
theorem haversine_symm_and_zero (ops : TrigOps α)
    (hodd : ∀ x, ops.sin (-x) = -ops.sin x)
    (hsqrt : ops.sqrt 0 = 0)
    (hatan : ∀ y, ops.atan2 0 y = 0) :
    (∀ a b : Point α, _haversine ops a b = _haversine ops b a) ∧
      (∀ a : Point α, _haversine ops a a = 0) := by
  have hsin0 : ops.sin 0 = 0 := by
    have h := hodd 0
    rw [neg_zero] at h
    linarith
  constructor
  · intro a b
    simp only [_haversine, toRad]
    rw [show (a.lat - b.lat) * ops.pi / 180 / 2 = -((b.lat - a.lat) * ops.pi / 180 / 2) by ring,
      show (a.lng - b.lng) * ops.pi / 180 / 2 = -((b.lng - a.lng) * ops.pi / 180 / 2) by ring,
      hodd, hodd]
    ring_nf
  · intro a
    simp only [_haversine, toRad]
    rw [show a.lat - a.lat = (0 : α) by ring, show a.lng - a.lng = (0 : α) by ring]
    simp only [zero_mul, zero_div]
    rw [hsin0]
    simp only [mul_zero, zero_mul, add_zero, zero_add]
    rw [hsqrt]
    simp only [sub_zero]
    rw [hatan]
    ring

/-- C9 witness: symmetry and the zero law evaluated on concrete points with
the concrete `qTrig` record (whose `sin` is odd, etc.). -/
theorem haversine_symm_and_zero_witness :
    _haversine qTrig ⟨1, 2⟩ ⟨3, 4⟩ = _haversine qTrig ⟨3, 4⟩ ⟨1, 2⟩ ∧
      _haversine qTrig ⟨5, 6⟩ ⟨5, 6⟩ = 0 :=
  ⟨(haversine_symm_and_zero qTrig (fun _ => rfl) rfl (fun _ => rfl)).1 _ _,
   (haversine_symm_and_zero qTrig (fun _ => rfl) rfl (fun _ => rfl)).2 _⟩

/-! ## C1: fallback behavior of calculateDistance -/

/-- C1 (amended): when neither API key is truthy, the only network attempt
`calculateDistance` can make is OSRM; if that attempt fails (or is not
selected), the call resolves with the rounded Haversine distance and an
absent duration.  Invalid caller points still reject.  (The unamended claim
is false: a failing Google or ORS attempt rejects the whole call, see the
counterexample.) -/
theorem calculateDistance_haversine_when_unkeyed [FloorRing α] (ops : TrigOps α)
    (a b : PointInput α) (o : Options) (env : CalcEnv α) (A B : Point α)
    (hga : jsStrTruthy o.googleApiKey = false)
    (hoa : jsStrTruthy o.openRouteServiceApiKey = false)
    (hA : _validatePoint a "point A" = .ok A)
    (hB : _validatePoint b "point B" = .ok B)
    (hfail : osrmRouteAttempt env.osrm = none) :
    calculateDistance ops a b o env = .ok ⟨jsRound (_haversine ops A B), none, "meters"⟩
    ∧ ∀ (a2 : PointInput α) e, _validatePoint a2 "point A" = .error e →
        calculateDistance ops a2 b o env = .error e := by
  have hg : googleSelected o = false := by simp [googleSelected, hga]
  have hor : orsSelected o = false := by simp [orsSelected, hoa]
  constructor
  · simp only [calculateDistance, hA, hB, hg, hor, Bool.false_eq_true, if_false]
    by_cases hos : osrmSelected o
    · simp [hos, hfail]
    · simp [hos]
  · intro a2 e he
    simp only [calculateDistance, he]

/-- C1 witness: valid points, no keys, OSRM down — the call resolves with
the Haversine result and no duration. -/
theorem calculateDistance_haversine_when_unkeyed_witness :
    calculateDistance qTrig (.latLng (some 1) (some 0)) (.latLng (some 1) (some 2))
        ⟨none, none, none, none, none⟩ ⟨.error (), .error (), .error (), .error ()⟩ =
      .ok ⟨jsRound (_haversine qTrig ⟨1, 0⟩ ⟨1, 2⟩), none, "meters"⟩ :=
  (calculateDistance_haversine_when_unkeyed qTrig (.latLng (some 1) (some 0))
    (.latLng (some 1) (some 2)) ⟨none, none, none, none, none⟩
    ⟨.error (), .error (), .error (), .error ()⟩ ⟨1, 0⟩ ⟨1, 2⟩
    rfl rfl rfl rfl rfl).1

/-- C1 counterexample: both points valid, a Google key configured, and every
provider attempt failing — the claim says the call resolves via Haversine,
but it rejects. -/
theorem calculateDistance_rejects_on_google_error :
    _validatePoint (α := ℚ) (.latLng (some 1) (some 0)) "point A" = .ok ⟨1, 0⟩
    ∧ _validatePoint (α := ℚ) (.latLng (some 1) (some 2)) "point B" = .ok ⟨1, 2⟩
    ∧ calculateDistance qTrig (.latLng (some 1) (some 0)) (.latLng (some 1) (some 2))
        ⟨none, some "key", none, none, none⟩
        ⟨.error (), .error (), .error (), .error ()⟩ = .error "fetch failed" :=
  ⟨rfl, rfl, rfl⟩

/-! ## C2: provider ordering within calculateDistance -/

/-- C2 (amended): the provider branches are selected in the fixed order
Google, ORS, OSRM, and only the first selected branch ever runs: the result
is independent of every later provider's outcome.  A failing Google attempt
rejects the call (it does not invoke ORS or OSRM); only a failing OSRM
attempt falls through — to the Haversine fallback, not to another
provider. -/
theorem calculateDistance_single_branch_order [FloorRing α] (ops : TrigOps α)
    (a b : PointInput α) (o : Options) :
    (googleSelected o = true → ∀ env env2 : CalcEnv α, env.google = env2.google →
        calculateDistance ops a b o env = calculateDistance ops a b o env2)
    ∧ (googleSelected o = false → orsSelected o = true →
        ∀ env env2 : CalcEnv α, env.orsFootWalking = env2.orsFootWalking →
          env.orsProfile = env2.orsProfile →
          calculateDistance ops a b o env = calculateDistance ops a b o env2)
    ∧ (googleSelected o = true → ∀ env : CalcEnv α, env.google = .error () →
        ∀ A B : Point α, _validatePoint a "point A" = .ok A →
          _validatePoint b "point B" = .ok B →
          calculateDistance ops a b o env = .error "fetch failed")
    ∧ (googleSelected o = false → orsSelected o = false → osrmSelected o = true →
        ∀ env : CalcEnv α, osrmRouteAttempt env.osrm = none →
        ∀ A B : Point α, _validatePoint a "point A" = .ok A →
          _validatePoint b "point B" = .ok B →
          calculateDistance ops a b o env =
            .ok ⟨jsRound (_haversine ops A B), none, "meters"⟩) := by
  refine ⟨?_, ?_, ?_, ?_⟩
  · intro hg env env2 henv
    cases hA : _validatePoint a "point A" with
    | error e => simp only [calculateDistance, hA]
    | ok A =>
      cases hB : _validatePoint b "point B" with
      | error e => simp only [calculateDistance, hA, hB]
      | ok B => simp only [calculateDistance, hA, hB, hg, if_true, henv]
  · intro hg hors env env2 h1 h2
    cases hA : _validatePoint a "point A" with
    | error e => simp only [calculateDistance, hA]
    | ok A =>
      cases hB : _validatePoint b "point B" with
      | error e => simp only [calculateDistance, hA, hB]
      | ok B =>
        simp only [calculateDistance, hA, hB, hg, hors, Bool.false_eq_true, if_false,
          if_true, h1, h2]
  · intro hg env henv A B hA hB
    simp only [calculateDistance, hA, hB, hg, if_true, henv]
  · intro hg hors hos env hfail A B hA hB
    simp only [calculateDistance, hA, hB, hg, hors, hos, Bool.false_eq_true, if_false,
      if_true, hfail]

/-- C2 witness: with a Google key configured, the result is the same no
matter what the ORS and OSRM outcomes are — provider 2 is never
consulted once provider 1 is selected. -/
theorem calculateDistance_single_branch_order_witness :
    calculateDistance qTrig (.latLng (some 1) (some 0)) (.latLng (some 1) (some 2))
        ⟨none, some "g", none, none, none⟩
        ⟨.ok ⟨"OK", [[⟨"OK", some 777, some 9⟩]]⟩, .error (), .error (), .error ()⟩ =
      calculateDistance qTrig (.latLng (some 1) (some 0)) (.latLng (some 1) (some 2))
        ⟨none, some "g", none, none, none⟩
        ⟨.ok ⟨"OK", [[⟨"OK", some 777, some 9⟩]]⟩,
          .ok ⟨some [[some 0, some 5], [some 5, some 0]], none⟩, .error (),
          .ok ⟨some "Ok", [⟨3, some 4⟩]⟩⟩ :=
  (calculateDistance_single_branch_order qTrig _ _ _).1 (by decide) _ _ rfl

/-- C2 counterexample: provider 1 (Google) always errors and provider 2
(ORS) would succeed with distance 1234 — the claim says the ORS result is
returned, but the call rejects without ever reaching ORS. -/
theorem calculateDistance_no_chain_advance :
    calculateDistance qTrig (.latLng (some 1) (some 0)) (.latLng (some 1) (some 2))
        ⟨none, some "g", some "o", none, none⟩
        ⟨.error (),
          .ok ⟨some [[some 0, some 1234], [some 1234, some 0]],
            some [[some 0, some 60], [some 60, some 0]]⟩, .error (), .error ()⟩ =
      .error "fetch failed"
    ∧ calculateDistance qTrig (.latLng (some 1) (some 0)) (.latLng (some 1) (some 2))
        ⟨none, some "g", some "o", none, none⟩
        ⟨.error (),
          .ok ⟨some [[some 0, some 1234], [some 1234, some 0]],
            some [[some 0, some 60], [some 60, some 0]]⟩, .error (), .error ()⟩ ≠
      .ok ⟨1234, some 60, "meters"⟩ := by
  exact ⟨rfl, by decide⟩

/-! ## C10: falsy coalescing of zero ORS values -/

/-- C10: when the ORS branch resolves and the looked-up duration cell is
exactly `0`, the `|| undefined` coalescing drops it: the result's duration
is absent and `getEstimatedTime` returns `null`; likewise a `0` distance
cell is silently replaced by the (unrounded) Haversine value. -/
theorem ors_zero_coalescing [FloorRing α] (ops : TrigOps α)
    (a b : PointInput α) (o : Options) (env : CalcEnv α) (A B : Point α)
    (resp : OrsResp α)
    (hg : googleSelected o = false)
    (hors : orsSelected o = true)
    (hA : _validatePoint a "point A" = .ok A)
    (hB : _validatePoint b "point B" = .ok B)
    (hresp : env.orsFootWalking = .ok resp)
    (hdur : orsCell resp.durations = some 0) :
    (∃ d, calculateDistance ops a b o env = .ok ⟨d, none, "meters"⟩)
    ∧ getEstimatedTime ops a b o env = .ok none
    ∧ (orsCell resp.distances = some 0 →
        calculateDistance ops a b o env = .ok ⟨_haversine ops A B, none, "meters"⟩) := by
  have hcalc : calculateDistance ops a b o env = orsPairResult ops A B resp := by
    simp only [calculateDistance, hA, hB, hg, hors, Bool.false_eq_true, if_false, if_true,
      hresp]
  have hres : ∃ d, calculateDistance ops a b o env = .ok ⟨d, none, "meters"⟩ := by
    rw [hcalc]
    unfold orsPairResult
    rw [hdur]
    simp only [if_pos]
    exact ⟨_, rfl⟩
  refine ⟨hres, ?_, ?_⟩
  · obtain ⟨d, hd⟩ := hres
    simp only [getEstimatedTime, hd]
  · intro hdist
    rw [hcalc]
    unfold orsPairResult
    rw [hdur, hdist]
    simp

/-- C10 witness: an ORS response whose relevant cells are both exactly `0`
yields the Haversine distance, an absent duration, and a `null` estimated
time. -/
theorem ors_zero_coalescing_witness :
    calculateDistance qTrig (.latLng (some 1) (some 0)) (.latLng (some 1) (some 2))
        ⟨none, none, some "k", none, none⟩
        ⟨.error (), .ok ⟨some [[some 0, some 0], [some 0, some 0]],
          some [[some 0, some 0], [some 0, some 0]]⟩, .error (), .error ()⟩ =
      .ok ⟨_haversine qTrig ⟨1, 0⟩ ⟨1, 2⟩, none, "meters"⟩
    ∧ getEstimatedTime qTrig (.latLng (some 1) (some 0)) (.latLng (some 1) (some 2))
        ⟨none, none, some "k", none, none⟩
        ⟨.error (), .ok ⟨some [[some 0, some 0], [some 0, some 0]],
          some [[some 0, some 0], [some 0, some 0]]⟩, .error (), .error ()⟩ = .ok none :=
  ⟨(ors_zero_coalescing qTrig (.latLng (some 1) (some 0)) (.latLng (some 1) (some 2))
      ⟨none, none, some "k", none, none⟩
      ⟨.error (), .ok ⟨some [[some 0, some 0], [some 0, some 0]],
        some [[some 0, some 0], [some 0, some 0]]⟩, .error (), .error ()⟩
      ⟨1, 0⟩ ⟨1, 2⟩
      ⟨some [[some 0, some 0], [some 0, some 0]],
        some [[some 0, some 0], [some 0, some 0]]⟩
      rfl rfl rfl rfl rfl rfl).2.2 rfl,
   (ors_zero_coalescing qTrig (.latLng (some 1) (some 0)) (.latLng (some 1) (some 2))
      ⟨none, none, some "k", none, none⟩
      ⟨.error (), .ok ⟨some [[some 0, some 0], [some 0, some 0]],
        some [[some 0, some 0], [some 0, some 0]]⟩, .error (), .error ()⟩
      ⟨1, 0⟩ ⟨1, 2⟩
      ⟨some [[some 0, some 0], [some 0, some 0]],
        some [[some 0, some 0], [some 0, some 0]]⟩
      rfl rfl rfl rfl rfl rfl).2.1⟩

/-! ## C4 and C6: distance-matrix population -/

/-- Cell access `m[i][j]` on a built matrix: `none` when the row or cell is
out of range, `some none` for a `null` cell, `some (some v)` for a value. -/
def mcell (m : List (List (Option α))) (i j : Nat) : Option (Option α) :=
  match m[i]? with
  | some row => row[j]?
  | none => none

/-- The fallback matrix has `0` on the diagonal and a rounded Haversine
value off it, at every in-range position. -/
theorem haversineDistances_cell [FloorRing α] (ops : TrigOps α) (pts : List (Point α))
    {i j : Nat} (hi : i < pts.length) (hj : j < pts.length) :
    mcell (haversineDistances ops pts) i j =
      some (if i = j then some 0
        else some (jsRound (_haversine ops (pts.getD i default) (pts.getD j default)))) := by
  unfold mcell haversineDistances
  rw [List.getElem?_map, List.getElem?_range hi, Option.map_some']
  dsimp only
  rw [List.getElem?_map, List.getElem?_range hj, Option.map_some']

/-- C6 (amended): in the Haversine fallback branch (no provider selected by
the configuration) the returned matrix has `distances[i][i] = 0` for every
`i`; provider branches instead return the provider's matrix verbatim, so
there the diagonal is whatever the provider reported. -/
theorem matrix_fallback_zero_diagonal [FloorRing α] (ops : TrigOps α)
    (points : List (PointInput α)) (o : Options) (env : MatrixEnv α)
    (pts : List (Point α))
    (hg : googleSelected o = false) (hors : orsSelected o = false)
    (hos : osrmSelected o = false)
    (hv : validatePoints points = .ok pts) (hlen : 2 ≤ points.length) :
    getDistanceMatrix ops points o env =
      .ok ⟨some (haversineDistances ops pts), some (haversineDurations pts), "meters"⟩
    ∧ ∀ i < pts.length, mcell (haversineDistances ops pts) i i = some (some 0) := by
  constructor
  · unfold getDistanceMatrix
    rw [if_neg (by omega), hv]
    simp [hg, hors, hos]
  · intro i hi
    rw [haversineDistances_cell ops pts hi hi, if_pos rfl]

/-- C6 witness: a two-point fallback call (provider `"google"` but no key,
so no branch is selected) produces the Haversine matrix with a zero
diagonal. -/
theorem matrix_fallback_zero_diagonal_witness :
    getDistanceMatrix qTrig [.latLng (some 1) (some 0), .latLng (some 1) (some 2)]
        ⟨some "google", none, none, none, none⟩ ⟨.error (), .error (), .error ()⟩ =
      .ok ⟨some (haversineDistances qTrig [⟨1, 0⟩, ⟨1, 2⟩]),
        some (haversineDurations [⟨1, 0⟩, ⟨1, 2⟩]), "meters"⟩
    ∧ mcell (haversineDistances qTrig [(⟨1, 0⟩ : Point ℚ), ⟨1, 2⟩]) 0 0 = some (some 0) :=
  ⟨(matrix_fallback_zero_diagonal qTrig [.latLng (some 1) (some 0), .latLng (some 1) (some 2)]
      ⟨some "google", none, none, none, none⟩ ⟨.error (), .error (), .error ()⟩
      [⟨1, 0⟩, ⟨1, 2⟩] (by decide) (by decide) (by decide) rfl (by decide)).1,
   (matrix_fallback_zero_diagonal qTrig [.latLng (some 1) (some 0), .latLng (some 1) (some 2)]
      ⟨some "google", none, none, none, none⟩ ⟨.error (), .error (), .error ()⟩
      [⟨1, 0⟩, ⟨1, 2⟩] (by decide) (by decide) (by decide) rfl (by decide)).2 0 (by decide)⟩

/-- C6 counterexample: a Google response whose diagonal element carries a
nonzero distance is passed through verbatim, so `distances[0][0] = 5 ≠ 0`
despite a valid two-point input. -/
theorem matrix_google_nonzero_diagonal :
    getDistanceMatrix qTrig [.latLng (some 1) (some 0), .latLng (some 1) (some 2)]
        ⟨none, some "g", none, none, none⟩
        ⟨.ok ⟨"OK", [[⟨"OK", some 5, none⟩, ⟨"OK", some 7, none⟩],
          [⟨"OK", some 7, none⟩, ⟨"OK", some 5, none⟩]]⟩, .error (), .error ()⟩ =
      .ok ⟨some [[some 5, some 7], [some 7, some 5]],
        some [[none, none], [none, none]], "meters"⟩
    ∧ mcell [[some (5 : ℚ), some 7], [some 7, some 5]] 0 0 ≠ some (some 0) :=
  ⟨rfl, by decide⟩

/-- C4 (amended): only the Haversine fallback branch guarantees a fully
populated matrix (every cell carries a numeric value); the provider
branches return provider data verbatim, so an unresolved Google cell stays
`null`, a missing ORS/OSRM matrix makes the whole `distances` container
`null`, and a failed provider fetch rejects the call. -/
theorem matrix_fallback_fully_populated [FloorRing α] (ops : TrigOps α)
    (points : List (PointInput α)) (o : Options) (env : MatrixEnv α)
    (pts : List (Point α))
    (hg : googleSelected o = false) (hors : orsSelected o = false)
    (hos : osrmSelected o = false)
    (hv : validatePoints points = .ok pts) (hlen : 2 ≤ points.length) :
    getDistanceMatrix ops points o env =
      .ok ⟨some (haversineDistances ops pts), some (haversineDurations pts), "meters"⟩
    ∧ ∀ i < pts.length, ∀ j < pts.length,
        ∃ v : α, mcell (haversineDistances ops pts) i j = some (some v) := by
  constructor
  · unfold getDistanceMatrix
    rw [if_neg (by omega), hv]
    simp [hg, hors, hos]
  · intro i hi j hj
    rw [haversineDistances_cell ops pts hi hj]
    by_cases hij : i = j
    · exact ⟨0, by rw [if_pos hij]⟩
    · exact ⟨_, by rw [if_neg hij]⟩

/-- C4 witness: the fallback branch on two concrete points, with every cell
carrying a numeric value. -/
theorem matrix_fallback_fully_populated_witness :
    getDistanceMatrix qTrig [.latLng (some 1) (some 0), .latLng (some 1) (some 2)]
        ⟨some "nonesuch", none, none, none, none⟩ ⟨.error (), .error (), .error ()⟩ =
      .ok ⟨some (haversineDistances qTrig [⟨1, 0⟩, ⟨1, 2⟩]),
        some (haversineDurations [⟨1, 0⟩, ⟨1, 2⟩]), "meters"⟩
    ∧ ∃ v : ℚ, mcell (haversineDistances qTrig [(⟨1, 0⟩ : Point ℚ), ⟨1, 2⟩]) 0 1 =
        some (some v) :=
  ⟨(matrix_fallback_fully_populated qTrig
      [.latLng (some 1) (some 0), .latLng (some 1) (some 2)]
      ⟨some "nonesuch", none, none, none, none⟩ ⟨.error (), .error (), .error ()⟩
      [⟨1, 0⟩, ⟨1, 2⟩] (by decide) (by decide) (by decide) rfl (by decide)).1,
   (matrix_fallback_fully_populated qTrig
      [.latLng (some 1) (some 0), .latLng (some 1) (some 2)]
      ⟨some "nonesuch", none, none, none, none⟩ ⟨.error (), .error (), .error ()⟩
      [⟨1, 0⟩, ⟨1, 2⟩] (by decide) (by decide) (by decide) rfl (by decide)).2
      0 (by decide) 1 (by decide)⟩

/-- C4 counterexample: a Google response with one failed element
(`status = "NOT_FOUND"`) yields a matrix whose cell `[0][1]` is `null` —
it is not filled in with the Haversine value. -/
theorem matrix_google_null_cell :
    getDistanceMatrix qTrig [.latLng (some 1) (some 0), .latLng (some 1) (some 2)]
        ⟨none, some "g", none, none, none⟩
        ⟨.ok ⟨"OK", [[⟨"OK", some 0, some 0⟩, ⟨"NOT_FOUND", none, none⟩],
          [⟨"OK", some 7, none⟩, ⟨"OK", some 0, none⟩]]⟩, .error (), .error ()⟩ =
      .ok ⟨some [[some 0, none], [some 7, some 0]],
        some [[some 0, none], [none, none]], "meters"⟩
    ∧ mcell [[some (0 : ℚ), none], [some 7, some 0]] 0 1 = some none :=
  ⟨rfl, rfl⟩

/-! ## Nearest-neighbor heuristic: specification lemmas -/

/-- A single scan update can only yield `none` when the accumulator was
`none` and the candidate was visited. -/
theorem nnUpdate_eq_none_iff (ops : TrigOps α) (pts : List (Point α)) (last : Point α)
    (visited : List Bool) (acc : Option (Nat × α)) (j : Nat) :
    nnUpdate ops pts last visited acc j = none ↔
      acc = none ∧ visited.getD j false = true := by
  unfold nnUpdate
  by_cases hv : visited.getD j false
  · rw [if_pos hv, hv]
    simp
  · have hv' : visited.getD j false = false := by simpa using hv
    rw [if_neg hv, hv']
    rcases acc with _ | ⟨b, bd⟩
    · dsimp only
      simp
    · dsimp only
      constructor
      · intro h
        split at h <;> simp at h
      · rintro ⟨h1, _⟩
        simp at h1

/-- The best-so-far distance never increases under an update. -/
theorem nnUpdate_snd_le (ops : TrigOps α) (pts : List (Point α)) (last : Point α)
    (visited : List Bool) {acc : Option (Nat × α)} {j b b0 : Nat} {bd bd0 : α}
    (h : nnUpdate ops pts last visited acc j = some (b, bd))
    (ha : acc = some (b0, bd0)) : bd ≤ bd0 := by
  subst ha
  unfold nnUpdate at h
  by_cases hv : visited.getD j false
  · rw [if_pos hv] at h
    cases h
    exact le_refl _
  · rw [if_neg hv] at h
    dsimp only at h
    split at h
    · cases h
      exact le_of_lt (by assumption)
    · cases h
      exact le_refl _

/-- An update result is either the old accumulator or the fresh candidate
with its own distance. -/
theorem nnUpdate_origin (ops : TrigOps α) (pts : List (Point α)) (last : Point α)
    (visited : List Bool) {acc : Option (Nat × α)} {j b : Nat} {bd : α}
    (h : nnUpdate ops pts last visited acc j = some (b, bd)) :
    acc = some (b, bd) ∨
      (b = j ∧ visited.getD j false = false ∧
        bd = _haversine ops last (pts.getD j default)) := by
  unfold nnUpdate at h
  by_cases hv : visited.getD j false
  · rw [if_pos hv] at h
    exact Or.inl h
  · rw [if_neg hv] at h
    rcases acc with _ | ⟨b0, bd0⟩
    · dsimp only at h
      cases h
      exact Or.inr ⟨rfl, by simpa using hv, rfl⟩
    · dsimp only at h
      split at h
      · cases h
        exact Or.inr ⟨rfl, by simpa using hv, rfl⟩
      · exact Or.inl h

/-- After scanning an unvisited candidate, the best-so-far distance is at
most that candidate's distance. -/
theorem nnUpdate_le_cand (ops : TrigOps α) (pts : List (Point α)) (last : Point α)
    (visited : List Bool) {acc : Option (Nat × α)} {j b : Nat} {bd : α}
    (h : nnUpdate ops pts last visited acc j = some (b, bd))
    (hv : visited.getD j false = false) :
    bd ≤ _haversine ops last (pts.getD j default) := by
  unfold nnUpdate at h
  rw [if_neg (by rw [hv]; exact Bool.false_ne_true)] at h
  rcases acc with _ | ⟨b0, bd0⟩
  · cases h
    exact le_refl _
  · dsimp only at h
    split at h
    · cases h
      exact le_refl _
    · cases h
      exact le_of_not_lt (by assumption)

/-- The scan yields `none` exactly when it started from `none` and every
scanned candidate was visited. -/
theorem nnFold_eq_none_iff (ops : TrigOps α) (pts : List (Point α)) (last : Point α)
    (visited : List Bool) (l : List Nat) (acc : Option (Nat × α)) :
    nnFold ops pts last visited l acc = none ↔
      acc = none ∧ ∀ j ∈ l, visited.getD j false = true := by
  induction l generalizing acc with
  | nil => simp [nnFold]
  | cons j rest ih =>
    rw [show nnFold ops pts last visited (j :: rest) acc =
        nnFold ops pts last visited rest (nnUpdate ops pts last visited acc j) from rfl]
    rw [ih]
    rw [nnUpdate_eq_none_iff]
    constructor
    · rintro ⟨⟨h1, h2⟩, h3⟩
      refine ⟨h1, fun k hk => ?_⟩
      rcases List.mem_cons.mp hk with h | h
      · subst h; exact h2
      · exact h3 k h
    · rintro ⟨h1, h2⟩
      exact ⟨⟨h1, h2 j (List.mem_cons_self _ _)⟩,
        fun k hk => h2 k (List.mem_cons_of_mem _ hk)⟩

/-- The final best-so-far distance is at most the initial one. -/
theorem nnFold_snd_le (ops : TrigOps α) (pts : List (Point α)) (last : Point α)
    (visited : List Bool) (l : List Nat) {acc : Option (Nat × α)} {b b0 : Nat} {bd bd0 : α}
    (h : nnFold ops pts last visited l acc = some (b, bd))
    (ha : acc = some (b0, bd0)) : bd ≤ bd0 := by
  induction l generalizing acc b0 bd0 with
  | nil =>
    rw [show nnFold ops pts last visited [] acc = acc from rfl] at h
    rw [ha] at h
    cases h
    exact le_refl _
  | cons j rest ih =>
    rw [show nnFold ops pts last visited (j :: rest) acc =
        nnFold ops pts last visited rest (nnUpdate ops pts last visited acc j) from rfl] at h
    rcases hacc : nnUpdate ops pts last visited acc j with _ | ⟨b1, bd1⟩
    · rw [nnUpdate_eq_none_iff, ha] at hacc
      exact absurd hacc.1 (by simp)
    · exact le_trans (ih (by rw [hacc] at h; exact h) rfl)
        (nnUpdate_snd_le ops pts last visited hacc ha)

/-- The final best-so-far distance is at most the distance of every
unvisited scanned candidate. -/
theorem nnFold_min (ops : TrigOps α) (pts : List (Point α)) (last : Point α)
    (visited : List Bool) (l : List Nat) {acc : Option (Nat × α)} {b : Nat} {bd : α}
    (h : nnFold ops pts last visited l acc = some (b, bd)) :
    ∀ j ∈ l, visited.getD j false = false →
      bd ≤ _haversine ops last (pts.getD j default) := by
  induction l generalizing acc with
  | nil => intro j hj; exact absurd hj (List.not_mem_nil j)
  | cons k rest ih =>
    intro j hj hvj
    rw [show nnFold ops pts last visited (k :: rest) acc =
        nnFold ops pts last visited rest (nnUpdate ops pts last visited acc k) from rfl] at h
    rcases List.mem_cons.mp hj with rfl | hjr
    · rcases hacc : nnUpdate ops pts last visited acc j with _ | ⟨b1, bd1⟩
      · rw [nnUpdate_eq_none_iff] at hacc
        rw [hacc.2] at hvj
        exact absurd hvj (by simp)
      · refine le_trans (nnFold_snd_le ops pts last visited rest
          (by rw [hacc] at h; exact h) rfl) ?_
        exact nnUpdate_le_cand ops pts last visited hacc hvj
    · exact ih (by exact h) j hjr hvj

/-- The chosen index came from the scanned candidates (when the scan did
not start with an accumulator), is unvisited, and carries its own
distance. -/
theorem nnFold_origin (ops : TrigOps α) (pts : List (Point α)) (last : Point α)
    (visited : List Bool) (l : List Nat) {acc : Option (Nat × α)} {b : Nat} {bd : α}
    (h : nnFold ops pts last visited l acc = some (b, bd)) :
    acc = some (b, bd) ∨
      (b ∈ l ∧ visited.getD b false = false ∧
        bd = _haversine ops last (pts.getD b default)) := by
  induction l generalizing acc with
  | nil =>
    rw [show nnFold ops pts last visited [] acc = acc from rfl] at h
    exact Or.inl h
  | cons k rest ih =>
    rw [show nnFold ops pts last visited (k :: rest) acc =
        nnFold ops pts last visited rest (nnUpdate ops pts last visited acc k) from rfl] at h
    rcases ih (by exact h) with h1 | h1
    · rcases nnUpdate_origin ops pts last visited h1 with h2 | h2
      · exact Or.inl h2
      · obtain ⟨hbk, hkv, hbd⟩ := h2
        subst hbk
        exact Or.inr ⟨List.mem_cons_self _ _, hkv, hbd⟩
    · exact Or.inr ⟨List.mem_cons_of_mem _ h1.1, h1.2⟩

/-- The step returns `none` exactly when every index is visited. -/
theorem nnStep_eq_none_iff (ops : TrigOps α) (pts : List (Point α)) (last : Point α)
    (visited : List Bool) :
    nnStep ops pts last visited = none ↔
      ∀ j < pts.length, visited.getD j false = true := by
  unfold nnStep
  rw [Option.map_eq_none', nnFold_eq_none_iff]
  simp [List.mem_range]

/-- A successful step picks an in-range unvisited index whose distance from
`last` is minimal among all unvisited indices. -/
theorem nnStep_spec (ops : TrigOps α) (pts : List (Point α)) (last : Point α)
    (visited : List Bool) {best : Nat}
    (h : nnStep ops pts last visited = some best) :
    best < pts.length ∧ visited.getD best false = false ∧
      ∀ j < pts.length, visited.getD j false = false →
        _haversine ops last (pts.getD best default) ≤
        _haversine ops last (pts.getD j default) := by
  unfold nnStep at h
  rcases hf : nnFold ops pts last visited (List.range pts.length) none with _ | ⟨b, bd⟩
  · rw [hf] at h
    exact absurd h (by simp)
  · rw [hf] at h
    have hb : b = best := by
      have := h
      simp only [Option.map_some'] at this
      cases this
      rfl
    subst hb
    rcases nnFold_origin ops pts last visited _ hf with h1 | h1
    · exact absurd h1 (by simp)
    · obtain ⟨hmem, hunv, hbd⟩ := h1
      refine ⟨List.mem_range.mp hmem, hunv, fun j hj hvj => ?_⟩
      have hle := nnFold_min ops pts last visited _ hf j (List.mem_range.mpr hj) hvj
      rw [hbd] at hle
      exact hle

/-- Loop invariant of the greedy walk: the visited flags are exactly the
membership predicate of the (duplicate-free, in-range) order built so
far. -/
def NNInv (pts : List (Point α)) (order : List Nat) (visited : List Bool) : Prop :=
  visited.length = pts.length ∧ order.Nodup ∧
    (∀ j, visited.getD j false = true ↔ j ∈ order) ∧ ∀ j ∈ order, j < pts.length

omit [LinearOrderedField α] in
theorem NNInv.not_mem_of_unvisited {pts : List (Point α)} {order : List Nat}
    {visited : List Bool} (inv : NNInv pts order visited) {j : Nat}
    (h : visited.getD j false = false) : j ∉ order := by
  intro hmem
  rw [← inv.2.2.1 j] at hmem
  rw [h] at hmem
  exact Bool.noConfusion hmem

/-- A successful step preserves the invariant. -/
theorem nnInv_step (ops : TrigOps α) {pts : List (Point α)} {order : List Nat}
    {visited : List Bool} {best : Nat} (inv : NNInv pts order visited)
    (h : nnStep ops pts (pts.getD (order.getLastD 0) default) visited = some best) :
    NNInv pts (order ++ [best]) (visited.set best true) := by
  obtain ⟨hlen, hnd, hiff, hbound⟩ := inv
  obtain ⟨hblt, hbunv, _⟩ := nnStep_spec ops pts _ visited h
  have hbnot : best ∉ order := by
    intro hmem
    rw [← hiff best] at hmem
    rw [hbunv] at hmem
    exact Bool.noConfusion hmem
  have hbvis : best < visited.length := by rw [hlen]; exact hblt
  refine ⟨by rw [List.length_set _ _ _]; exact hlen, ?_, ?_, ?_⟩
  · rw [List.nodup_append]
    refine ⟨hnd, List.nodup_singleton _, fun a ha hb => ?_⟩
    rw [List.mem_singleton] at hb
    subst hb
    exact hbnot ha
  · intro j
    by_cases hj : j = best
    · subst hj
      rw [List.getD_eq_getElem?_getD, List.getElem?_set_self', List.getElem?_eq_getElem hbvis]
      simp
    · rw [List.getD_eq_getElem?_getD, List.getElem?_set_ne (fun hh => hj hh.symm),
        ← List.getD_eq_getElem?_getD]
      rw [hiff j]
      simp [hj]
  · intro j hj
    rcases List.mem_append.mp hj with h1 | h1
    · exact hbound j h1
    · rw [List.mem_singleton] at h1
      subst h1
      exact hblt

omit [LinearOrderedField α] in
/-- While the order is short of the point count, some index is
unvisited. -/
theorem nnInv_exists_unvisited {pts : List (Point α)} {order : List Nat}
    {visited : List Bool} (inv : NNInv pts order visited)
    (hlt : order.length < pts.length) :
    ∃ j, j < pts.length ∧ visited.getD j false = false := by
  by_contra hc
  push_neg at hc
  have hsub : List.range pts.length ⊆ order := by
    intro j hj
    rw [List.mem_range] at hj
    rw [← inv.2.2.1 j]
    have := hc j hj
    revert this
    cases visited.getD j false <;> simp
  have hle : pts.length ≤ order.length := by
    have h1 := (List.subperm_of_subset (List.nodup_range _) hsub).length_le
    simpa using h1
  omega

omit [LinearOrderedField α] in
/-- Once the order reaches the point count it is a permutation of the index
range. -/
theorem nnInv_perm_of_full {pts : List (Point α)} {order : List Nat}
    {visited : List Bool} (inv : NNInv pts order visited)
    (hlen : order.length = pts.length) :
    List.Perm order (List.range pts.length) := by
  have hsub : order ⊆ List.range pts.length := fun j hj =>
    List.mem_range.mpr (inv.2.2.2 j hj)
  exact (List.subperm_of_subset inv.2.1 hsub).perm_of_length_le (by simp [hlen])

/-- Full specification of the greedy loop: the order built so far is a
prefix of the result, the result is a permutation of the index range, and
every appended index is an unvisited index of minimal Haversine distance
from its predecessor. -/
theorem nnLoop_spec (ops : TrigOps α) (pts : List (Point α)) :
    ∀ (fuel : Nat) (order : List Nat) (visited : List Bool),
      NNInv pts order visited → fuel + order.length = pts.length → order ≠ [] →
      List.IsPrefix order (nnLoop ops pts fuel order visited) ∧
      List.Perm (nnLoop ops pts fuel order visited) (List.range pts.length) ∧
      (∀ k u v, order.length ≤ k + 1 →
        (nnLoop ops pts fuel order visited)[k]? = some u →
        (nnLoop ops pts fuel order visited)[k + 1]? = some v →
        v < pts.length ∧ v ∉ (nnLoop ops pts fuel order visited).take (k + 1) ∧
        ∀ j < pts.length, j ∉ (nnLoop ops pts fuel order visited).take (k + 1) →
          _haversine ops (pts.getD u default) (pts.getD v default) ≤
          _haversine ops (pts.getD u default) (pts.getD j default)) := by
  intro fuel
  induction fuel with
  | zero =>
    intro order visited inv hfl hne
    rw [show nnLoop ops pts 0 order visited = order from rfl]
    refine ⟨List.prefix_refl _, nnInv_perm_of_full inv (by omega), ?_⟩
    intro k u v hk _ hv
    rw [List.getElem?_eq_none (le_trans hk (le_refl _))] at hv
    exact absurd hv (by simp)
  | succ f ih =>
    intro order visited inv hfl hne
    have hlt : order.length < pts.length := by omega
    obtain ⟨j0, hj0, hj0v⟩ := nnInv_exists_unvisited inv hlt
    rcases hstep : nnStep ops pts (pts.getD (order.getLastD 0) default) visited
      with _ | best
    · rw [nnStep_eq_none_iff] at hstep
      rw [hstep j0 hj0] at hj0v
      exact absurd hj0v (by simp)
    · have hunf : nnLoop ops pts (f + 1) order visited =
          nnLoop ops pts f (order ++ [best]) (visited.set best true) := by
        rw [nnLoop, hstep]
      rw [hunf]
      have hinv' := nnInv_step ops inv hstep
      have hfl' : f + (order ++ [best]).length = pts.length := by
        simp only [List.length_append, List.length_singleton]
        omega
      obtain ⟨hpre, hperm, hgreedy⟩ :=
        ih (order ++ [best]) (visited.set best true) hinv' hfl' (by simp)
      have hpre0 : List.IsPrefix order
          (nnLoop ops pts f (order ++ [best]) (visited.set best true)) :=
        List.IsPrefix.trans (List.prefix_append order [best]) hpre
      refine ⟨hpre0, hperm, ?_⟩
      intro k u v hk hu hv
      by_cases hcase : (order ++ [best]).length ≤ k + 1
      · exact hgreedy k u v hcase hu hv
      · have hlen1 : (order ++ [best]).length = order.length + 1 := by simp
        have hkeq : k + 1 = order.length := by omega
        have hklt : k < order.length := by omega
        obtain ⟨t, ht⟩ := hpre
        have hv' : (order ++ [best])[k + 1]? = some v := by
          rw [← ht, List.getElem?_append, if_pos (by omega)] at hv
          exact hv
        have hbestAt : (order ++ [best])[k + 1]? = some best := by
          rw [hkeq, List.getElem?_append, if_neg (lt_irrefl _)]
          simp
        have hvbest : v = best := by
          rw [hbestAt] at hv'
          cases hv'
          rfl
        have hu' : order[k]? = some u := by
          obtain ⟨t0, ht0⟩ := hpre0
          rw [← ht0, List.getElem?_append, if_pos hklt] at hu
          exact hu
        have hulast : u = order.getLastD 0 := by
          rw [List.getLastD_eq_getLast? 0 order, List.getLast?_eq_getElem? order,
            show order.length - 1 = k from by omega, hu']
          rfl
        have htake : (nnLoop ops pts f (order ++ [best]) (visited.set best true)).take
            (k + 1) = order := by
          rw [hkeq]
          exact (List.prefix_iff_eq_take.mp hpre0).symm
        obtain ⟨hblt, hbunv, hmin⟩ := nnStep_spec ops pts _ _ hstep
        subst hvbest
        refine ⟨hblt, ?_, ?_⟩
        · rw [htake]
          exact inv.not_mem_of_unvisited hbunv
        · intro jj hjj hjjnot
          rw [htake] at hjjnot
          have hjjunv : visited.getD jj false = false := by
            rcases hb : visited.getD jj false
            · rfl
            · rw [inv.2.2.1 jj] at hb
              exact absurd hb hjjnot
          rw [hulast]
          exact hmin jj hjj hjjunv

/-- Specification of `naiveOrder`: it starts at index 0, visits every index
exactly once, and each step appends the unvisited index of minimal
Haversine distance from the previous one. -/
theorem naiveOrder_spec (ops : TrigOps α) (pts : List (Point α)) (hn : 1 ≤ pts.length) :
    (naiveOrder ops pts).head? = some 0 ∧
    List.Perm (naiveOrder ops pts) (List.range pts.length) ∧
    (∀ k u v, (naiveOrder ops pts)[k]? = some u →
      (naiveOrder ops pts)[k + 1]? = some v →
      v < pts.length ∧ v ∉ (naiveOrder ops pts).take (k + 1) ∧
      ∀ j < pts.length, j ∉ (naiveOrder ops pts).take (k + 1) →
        _haversine ops (pts.getD u default) (pts.getD v default) ≤
        _haversine ops (pts.getD u default) (pts.getD j default)) := by
  have hinv : NNInv pts [0] ((List.replicate pts.length false).set 0 true) := by
    refine ⟨by simp, List.nodup_singleton _, ?_, ?_⟩
    · intro j
      rcases pts with _ | ⟨p, ps⟩
      · simp at hn
      · by_cases hj : j = 0
        · subst hj
          simp [List.replicate_succ]
        · have hfalse : ((List.replicate (p :: ps).length false).set 0 true).getD j
              false = false := by
            rw [List.getD_eq_getElem?_getD, List.getElem?_set_ne (fun hh => hj hh.symm)]
            rcases hlt : (List.replicate (p :: ps).length false)[j]? with _ | b
            · rfl
            · have hmem := List.getElem?_mem hlt
              rw [List.eq_of_mem_replicate hmem]
              rfl
          rw [hfalse]
          simp [hj]
    · intro j hj
      rw [List.mem_singleton] at hj
      subst hj
      omega
  obtain ⟨hpre, hperm, hgreedy⟩ := nnLoop_spec ops pts (pts.length - 1) [0]
    ((List.replicate pts.length false).set 0 true) hinv (by simp; omega) (by simp)
  refine ⟨?_, hperm, fun k u v hu hv => hgreedy k u v (by simp) hu hv⟩
  obtain ⟨t, ht⟩ := hpre
  rw [show naiveOrder ops pts = nnLoop ops pts (pts.length - 1) [0]
    ((List.replicate pts.length false).set 0 true) from rfl, ← ht]
  rfl

/-- Concrete three-point run of the heuristic: with `dist(A,B) < dist(A,C)`
the greedy order is exactly `[0, 1, 2]` — B is visited before C. -/
theorem naiveOrder_three (ops : TrigOps α) (A B C : Point α)
    (h : _haversine ops A B < _haversine ops A C) :
    naiveOrder ops [A, B, C] = [0, 1, 2] := by
  have hstep1 : nnStep ops [A, B, C] A [true, false, false] = some 1 := by
    unfold nnStep nnFold
    rw [show List.range ([A, B, C] : List (Point α)).length = [0, 1, 2] from rfl]
    rw [show List.foldl (nnUpdate ops [A, B, C] A [true, false, false]) none [0, 1, 2] =
      nnUpdate ops [A, B, C] A [true, false, false]
        (nnUpdate ops [A, B, C] A [true, false, false]
          (nnUpdate ops [A, B, C] A [true, false, false] none 0) 1) 2 from rfl]
    rw [show nnUpdate ops [A, B, C] A [true, false, false] none 0 = none from rfl]
    rw [show nnUpdate ops [A, B, C] A [true, false, false] none 1 =
      some (1, _haversine ops A B) from rfl]
    unfold nnUpdate
    rw [if_neg (by decide)]
    dsimp only
    rw [show ([A, B, C] : List (Point α)).getD 2 default = C from rfl]
    rw [if_neg (not_lt.mpr (le_of_lt h))]
    rfl
  calc naiveOrder ops [A, B, C]
      = nnLoop ops [A, B, C] 2 [0] [true, false, false] := rfl
    _ = nnLoop ops [A, B, C] 1 [0, 1] [true, true, false] := by
        have hm : nnLoop ops [A, B, C] 2 [0] [true, false, false] =
            match nnStep ops [A, B, C] (([A, B, C] : List (Point α)).getD
              (([0] : List Nat).getLastD 0) default) [true, false, false] with
            | none => [0]
            | some best => nnLoop ops [A, B, C] 1 ([0] ++ [best])
                ([true, false, false].set best true) := rfl
        rw [hm,
          show ([A, B, C] : List (Point α)).getD (([0] : List Nat).getLastD 0) default
            = A from rfl,
          hstep1]
        rfl
    _ = [0, 1, 2] := rfl

/-- The branch actually taken by `optimizeRoute` when neither the Google
nor the OSRM branch is selected: the local nearest-neighbor heuristic. -/
theorem optimizeRoute_naive_eq [FloorRing α] (ops : TrigOps α)
    (points : List (PointInput α)) (o : Options) (env : RouteEnv α)
    (pts : List (Point α))
    (hg : googleSelected o = false) (hos : osrmSelected o = false)
    (hv : validatePoints points = .ok pts) (hlen : 2 ≤ points.length) :
    optimizeRoute ops points o env =
      .ok ⟨(naiveOrder ops pts).map (fun i => pts[i]?), some (naiveOrder ops pts),
        none, none, "naive-haversine"⟩ := by
  unfold optimizeRoute
  rw [if_neg (by omega), hv]
  simp [hg, hos]

/-! ## C5: waypoints as a permutation of the input -/

/-- C5 (amended): in the local nearest-neighbor path (no provider branch
selected) the returned `waypoints` are a permutation of the normalized
input points.  The OSRM path instead rebuilds waypoints from
provider-reported snapped coordinates, so there the multiset can differ
(see the counterexample); the Google path depends on the provider's
`waypoint_order` being a true permutation of interior indices. -/
theorem optimizeRoute_naive_permutation [FloorRing α] (ops : TrigOps α)
    (points : List (PointInput α)) (o : Options) (env : RouteEnv α)
    (pts : List (Point α))
    (hg : googleSelected o = false) (hos : osrmSelected o = false)
    (hv : validatePoints points = .ok pts) (hlen : 2 ≤ points.length) :
    optimizeRoute ops points o env =
      .ok ⟨(naiveOrder ops pts).map (fun i => pts[i]?), some (naiveOrder ops pts),
        none, none, "naive-haversine"⟩
    ∧ List.Perm ((naiveOrder ops pts).map (fun i => pts[i]?)) (pts.map some)
    ∧ ∀ r : RouteResult α, optimizeRoute ops points o env = .ok r →
        List.Perm (r.waypoints.filterMap id) pts := by
  have heq := optimizeRoute_naive_eq ops points o env pts hg hos hv hlen
  have hn : 1 ≤ pts.length := by
    rw [validatePoints_length hv]
    omega
  obtain ⟨_, hperm, _⟩ := naiveOrder_spec ops pts hn
  have hmapperm : List.Perm ((naiveOrder ops pts).map (fun i => pts[i]?))
      (pts.map some) := by
    have h1 := hperm.map (fun i => pts[i]?)
    rw [range_map_getElem? pts] at h1
    exact h1
  refine ⟨heq, hmapperm, fun r hr => ?_⟩
  rw [heq] at hr
  cases hr
  have h2 := hmapperm.filterMap id
  rw [show (pts.map some).filterMap id = pts from by simp] at h2
  exact h2

/-- C5 witness: three concrete points through the heuristic path; the
returned waypoints are a permutation of the inputs. -/
theorem optimizeRoute_naive_permutation_witness :
    optimizeRoute qTrig
        [.latLng (some 1) (some 0), .latLng (some 1) (some 2), .latLng (some 1) (some 6)]
        ⟨some "ors", none, none, none, none⟩ ⟨.error (), .error ()⟩ =
      .ok ⟨(naiveOrder qTrig [⟨1, 0⟩, ⟨1, 2⟩, ⟨1, 6⟩]).map
          (fun i => ([(⟨1, 0⟩ : Point ℚ), ⟨1, 2⟩, ⟨1, 6⟩] : List (Point ℚ))[i]?),
        some (naiveOrder qTrig [⟨1, 0⟩, ⟨1, 2⟩, ⟨1, 6⟩]), none, none, "naive-haversine"⟩
    ∧ List.Perm ((naiveOrder qTrig [⟨1, 0⟩, ⟨1, 2⟩, ⟨1, 6⟩]).map
        (fun i => ([(⟨1, 0⟩ : Point ℚ), ⟨1, 2⟩, ⟨1, 6⟩] : List (Point ℚ))[i]?))
        (([(⟨1, 0⟩ : Point ℚ), ⟨1, 2⟩, ⟨1, 6⟩] : List (Point ℚ)).map some) :=
  ⟨(optimizeRoute_naive_permutation qTrig
      [.latLng (some 1) (some 0), .latLng (some 1) (some 2), .latLng (some 1) (some 6)]
      ⟨some "ors", none, none, none, none⟩ ⟨.error (), .error ()⟩
      [⟨1, 0⟩, ⟨1, 2⟩, ⟨1, 6⟩] (by decide) (by decide) rfl (by decide)).1,
   (optimizeRoute_naive_permutation qTrig
      [.latLng (some 1) (some 0), .latLng (some 1) (some 2), .latLng (some 1) (some 6)]
      ⟨some "ors", none, none, none, none⟩ ⟨.error (), .error ()⟩
      [⟨1, 0⟩, ⟨1, 2⟩, ⟨1, 6⟩] (by decide) (by decide) rfl (by decide)).2.1⟩

/-- C5 counterexample: an OSRM trip outcome reports snapped locations
`(9,5)` and `(8,6)`; the returned waypoints are rebuilt from those provider
coordinates, which are not a permutation of the inputs `(0,0)`, `(1,1)`. -/
theorem optimizeRoute_osrm_not_permutation :
    optimizeRoute qTrig [.latLng (some 0) (some 0), .latLng (some 1) (some 1)]
        ⟨some "auto", none, none, none, none⟩
        ⟨.error (), .ok ⟨some "Ok", [⟨some [], some 100, some 10⟩],
          some [⟨1, (9, 5)⟩, ⟨0, (8, 6)⟩]⟩⟩ =
      .ok ⟨[some ⟨6, 8⟩, some ⟨5, 9⟩], none, some 100, some 10, "osrm"⟩
    ∧ ¬ List.Perm ([some (⟨6, 8⟩ : Point ℚ), some ⟨5, 9⟩].filterMap id)
        [(⟨0, 0⟩ : Point ℚ), ⟨1, 1⟩] :=
  ⟨rfl, by decide⟩

/-! ## C7: the first waypoint anchor -/

/-- C7 (amended): in the Google path and in the local-heuristic path the
first returned waypoint is the normalized first input point (for any
`roundtrip` value); in the OSRM path waypoints are rebuilt from
provider-reported locations sorted by `waypoint_index`, so neither the
anchoring nor the mapping back to input `Point` values holds there. -/
theorem optimizeRoute_anchor_first [FloorRing α] (ops : TrigOps α)
    (points : List (PointInput α)) (o : Options) (env : RouteEnv α)
    (pts : List (Point α)) (r : RouteResult α)
    (hv : validatePoints points = .ok pts) (hlen : 2 ≤ points.length)
    (hr : optimizeRoute ops points o env = .ok r) :
    (googleSelected o = true → r.waypoints.head? = some pts[0]?)
    ∧ (googleSelected o = false → osrmSelected o = false →
        r.waypoints.head? = some pts[0]?) := by
  constructor
  · intro hg
    unfold optimizeRoute at hr
    rw [if_neg (by omega), hv] at hr
    rw [hg] at hr
    simp only [if_true] at hr
    rcases henv : env.google with _ | data
    · rw [henv] at hr
      exact absurd hr (by simp)
    · rw [henv] at hr
      dsimp only at hr
      split at hr
      · exact absurd hr (by simp)
      · split at hr
        · exact absurd hr (by simp)
        · cases hr
          rfl
  · intro hg hos
    have heq := optimizeRoute_naive_eq ops points o env pts hg hos hv hlen
    rw [heq] at hr
    cases hr
    have hn : 1 ≤ pts.length := by
      rw [validatePoints_length hv]
      omega
    obtain ⟨hhead, _, _⟩ := naiveOrder_spec ops pts hn
    dsimp only
    rw [List.head?_map, hhead]
    rfl

/-- C7 witness: the heuristic path on two concrete points anchors the first
normalized input at position 0. -/
theorem optimizeRoute_anchor_first_witness :
    (⟨[some ⟨1, 0⟩, some ⟨1, 2⟩], some [0, 1], none, none, "naive-haversine"⟩ :
        RouteResult ℚ).waypoints.head? =
      some (([(⟨1, 0⟩ : Point ℚ), ⟨1, 2⟩] : List (Point ℚ))[0]?) :=
  (optimizeRoute_anchor_first qTrig [.latLng (some 1) (some 0), .latLng (some 1) (some 2)]
    ⟨some "ors", none, none, none, none⟩ ⟨.error (), .error ()⟩
    [⟨1, 0⟩, ⟨1, 2⟩] ⟨[some ⟨1, 0⟩, some ⟨1, 2⟩], some [0, 1], none, none,
      "naive-haversine"⟩ rfl (by decide) rfl).2 (by decide) (by decide)

/-- C7 counterexample: with `roundtrip` unset (defaulting to false) an OSRM
outcome reorders and snaps: the first returned waypoint is the
provider-reported location `(lat 30, lng 20)`, not the normalized first
input `(0, 0)`, and the points are provider coordinates rather than input
`Point` values. -/
theorem optimizeRoute_osrm_provider_coords :
    optimizeRoute qTrig [.latLng (some 0) (some 0), .latLng (some 1) (some 1)]
        ⟨some "osrm", none, none, none, none⟩
        ⟨.error (), .ok ⟨none, [⟨some [], none, none⟩],
          some [⟨5, (20, 30)⟩, ⟨7, (40, 50)⟩]⟩⟩ =
      .ok ⟨[some ⟨30, 20⟩, some ⟨50, 40⟩], none, none, none, "osrm"⟩
    ∧ ([some (⟨30, 20⟩ : Point ℚ), some ⟨50, 40⟩].head? ≠ some (some ⟨0, 0⟩))
    ∧ (⟨30, 20⟩ : Point ℚ) ≠ ⟨0, 0⟩ :=
  ⟨rfl, by decide, by decide⟩

/-! ## C8: the nearest-neighbor heuristic -/

/-- C8 (amended): when the configuration selects neither the Google nor the
OSRM branch, `optimizeRoute` runs the local nearest-neighbor heuristic: the
order starts at input index 0, visits every index exactly once, each step
appends the unvisited index of minimal Haversine distance from the current
point, and for `[A, B, C]` with `dist(A,B) < dist(A,C)` the order is
`[0, 1, 2]` (B before C).  (When a selected OSRM attempt fails, the call
rejects instead of running the heuristic — see the counterexample.) -/
theorem optimizeRoute_nearest_neighbor [FloorRing α] (ops : TrigOps α)
    (points : List (PointInput α)) (o : Options) (env : RouteEnv α)
    (pts : List (Point α))
    (hg : googleSelected o = false) (hos : osrmSelected o = false)
    (hv : validatePoints points = .ok pts) (hlen : 2 ≤ points.length) :
    optimizeRoute ops points o env =
      .ok ⟨(naiveOrder ops pts).map (fun i => pts[i]?), some (naiveOrder ops pts),
        none, none, "naive-haversine"⟩
    ∧ (naiveOrder ops pts).head? = some 0
    ∧ List.Perm (naiveOrder ops pts) (List.range pts.length)
    ∧ (∀ k u v, (naiveOrder ops pts)[k]? = some u →
        (naiveOrder ops pts)[k + 1]? = some v →
        v < pts.length ∧ v ∉ (naiveOrder ops pts).take (k + 1) ∧
        ∀ j < pts.length, j ∉ (naiveOrder ops pts).take (k + 1) →
          _haversine ops (pts.getD u default) (pts.getD v default) ≤
          _haversine ops (pts.getD u default) (pts.getD j default))
    ∧ (∀ A B C : Point α, pts = [A, B, C] →
        _haversine ops A B < _haversine ops A C →
        naiveOrder ops pts = [0, 1, 2]) := by
  have hn : 1 ≤ pts.length := by
    rw [validatePoints_length hv]
    omega
  obtain ⟨h1, h2, h3⟩ := naiveOrder_spec ops pts hn
  refine ⟨optimizeRoute_naive_eq ops points o env pts hg hos hv hlen, h1, h2, h3, ?_⟩
  intro A B C hpts hlt
  rw [hpts]
  exact naiveOrder_three ops A B C hlt

/-- C8 witness: the heuristic on three concrete points whose fake-trig
distances satisfy `dist(A,B) < dist(A,C)` yields order `[0, 1, 2]`. -/
theorem optimizeRoute_nearest_neighbor_witness :
    naiveOrder qTrig [(⟨1, 0⟩ : Point ℚ), ⟨1, 2⟩, ⟨1, 6⟩] = [0, 1, 2] :=
  (optimizeRoute_nearest_neighbor qTrig
    [.latLng (some 1) (some 0), .latLng (some 1) (some 2), .latLng (some 1) (some 6)]
    ⟨some "ors", none, none, none, none⟩ ⟨.error (), .error ()⟩
    [⟨1, 0⟩, ⟨1, 2⟩, ⟨1, 6⟩] (by decide) (by decide) rfl (by decide)).2.2.2.2
    ⟨1, 0⟩ ⟨1, 2⟩ ⟨1, 6⟩ rfl (by norm_num [_haversine, toRad, qTrig])

/-- C8 counterexample: with provider auto and the OSRM trip request
failing, no provider performs route optimization — yet `optimizeRoute`
rejects instead of running the local heuristic. -/
theorem optimizeRoute_auto_osrm_error_rejects :
    optimizeRoute qTrig [.latLng (some 1) (some 0), .latLng (some 1) (some 2)]
        ⟨none, none, none, none, none⟩ ⟨.error (), .error ()⟩ = .error "fetch failed"
    ∧ ∀ r : RouteResult ℚ,
        optimizeRoute qTrig [.latLng (some 1) (some 0), .latLng (some 1) (some 2)]
          ⟨none, none, none, none, none⟩ ⟨.error (), .error ()⟩ ≠ .ok r := by
  refine ⟨rfl, fun r h => ?_⟩
  have base : optimizeRoute qTrig [.latLng (some 1) (some 0), .latLng (some 1) (some 2)]
      ⟨none, none, none, none, none⟩ ⟨.error (), .error ()⟩ =
      (.error "fetch failed" : Except String (RouteResult ℚ)) := rfl
  rw [base] at h
  exact Except.noConfusion h

end DistanceRoute
